import Mathlib

/-!
Shallow embedding of `message_analyzer.py` and `mcp_server.py` from the
message-analysis-mcp repository.

Text values are modelled as `Str := List Char`; Python runtime values that
flow through the message records are modelled by the inductive `PyVal`
(`None`, `str`, `int`, `bool`), with Python truthiness as `PyVal.truthy`.
-/

/-- Python strings, modelled as lists of characters. -/
abbrev Str := List Char

/-- Coerce a Lean string literal to the `Str` model. -/
def chars (s : String) : Str := s.data

/-- A Python runtime value as it appears in message tuples/rows and records:
`None`, a string, an integer, or a boolean. -/
inductive PyVal where
  | none : PyVal
  | str  : Str → PyVal
  | int  : Int → PyVal
  | bool : Bool → PyVal
deriving DecidableEq, Repr

/-- Python truthiness: `None`, `''`, `0` and `False` are falsy. -/
def PyVal.truthy : PyVal → Bool
  | .none => false
  | .str s => s ≠ []
  | .int n => n ≠ 0
  | .bool b => b

/-- Python `a or b` (returns `a` when `a` is truthy, else `b`). -/
def pyOr (a b : PyVal) : PyVal := if a.truthy then a else b

/-- The string content of a `PyVal`, for places where the Python code calls
a `str` method on it (a non-string there would raise `AttributeError`;
theorems about those code paths assume string-valued fields). -/
def PyVal.asStr : PyVal → Str
  | .str s => s
  | _ => []

/-- Python `str(v)` as used on message dates. -/
def PyVal.pyStr : PyVal → Str
  | .str s => s
  | .int n => (toString n).data
  | .bool b => if b then chars "True" else chars "False"
  | .none => chars "None"

/-- Python `tuple[i] if len(tuple) > i else default`. -/
def tupGet (t : List PyVal) (i : Nat) (dflt : PyVal) : PyVal :=
  if h : i < t.length then t.get ⟨i, h⟩ else dflt

/-- ASCII lower-casing of one character (Python `str.lower` on the
ASCII identifiers and message texts this program handles). -/
def lowerChar (c : Char) : Char :=
  if 'A' ≤ c ∧ c ≤ 'Z' then Char.ofNat (c.toNat + 32) else c

/-- Python `s.lower()`. -/
def pyLower (s : Str) : Str := s.map lowerChar

/-- Python `s.strip()`: remove leading and trailing whitespace. -/
def pyStrip (s : Str) : Str :=
  ((s.dropWhile Char.isWhitespace).reverse.dropWhile Char.isWhitespace).reverse

/-- Python substring test `needle in hay`. -/
def containsSub (hay needle : Str) : Bool :=
  hay.tails.any (fun t => needle.isPrefixOf t)

/-- Python `s.isdigit()` restricted to ASCII digits: non-empty and all digits. -/
def pyIsdigit (s : Str) : Bool := s ≠ [] && s.all Char.isDigit

/-- `MessageAnalyzer._format_phone_number` (message_analyzer.py lines 49-65).

Takes the raw `handle_id` value.  A falsy value (`None`, `''`) or the literal
`'Unknown'` yields `'Unknown'`; an email is returned as-is; a `+1`-prefixed
12-character identifier is rewritten to `+1 (AAA) BBB-CCCC`; other
`+`-prefixed all-digit identifiers and everything else are returned as-is.
(A truthy non-string would raise `TypeError` at `'@' in handle_id`; such
values never reach this function from the two loaders.) -/
def format_phone_number (handle_id : PyVal) : Str :=
  if !handle_id.truthy || handle_id = .str (chars "Unknown") then chars "Unknown"
  else
    let s := handle_id.asStr
    if '@' ∈ s then s
    else if (chars "+1").isPrefixOf s && s.length = 12 then
      chars "+1 (" ++ (s.drop 2).take 3 ++ chars ") " ++ (s.drop 5).take 3
        ++ chars "-" ++ s.drop 8
    else if (chars "+").isPrefixOf s && pyIsdigit (s.drop 1) then s
    else s

/-- C7: on a 12-character identifier starting with `+1` whose remaining 11
characters are digits, the formatter produces `+1 (AAA) BBB-CCCC` where
`AAA ++ BBB ++ CCCC` is exactly the input's digit sequence after the `+1`
marker — no digit lost, added or reordered. -/
theorem format_phone_number_groups (s : Str)
    (hlen : s.length = 12) (hpre : s.take 2 = chars "+1")
    (hdig : (s.drop 1).all Char.isDigit) :
    ∃ A B C : Str,
      A.length = 3 ∧ B.length = 3 ∧ C.length = 4 ∧
      format_phone_number (.str s) =
        chars "+1 (" ++ A ++ chars ") " ++ B ++ chars "-" ++ C ∧
      A ++ B ++ C = s.drop 2 := by
  refine ⟨(s.drop 2).take 3, (s.drop 5).take 3, s.drop 8, ?_, ?_, ?_, ?_, ?_⟩
  · simp [List.length_take, List.length_drop, hlen]
  · simp [List.length_take, List.length_drop, hlen]
  · simp [List.length_drop, hlen]
  · have hne : s ≠ [] := by
      intro h; rw [h] at hlen; simp at hlen
    have hsu : s ≠ chars "Unknown" := by
      intro h
      rw [h] at hpre
      simp [chars] at hpre
    have hat : '@' ∉ s := by
      intro hmem
      rcases (List.mem_iff_get).1 hmem with ⟨⟨i, hi⟩, hgi⟩
      rcases Nat.eq_zero_or_pos i with h0 | hpos
      · subst h0
        have : s.get ⟨0, hi⟩ ∈ s.take 2 := by
          apply List.mem_take_iff_getElem.2
          exact ⟨0, by omega, by simp [List.getElem_take]⟩
        rw [hgi, hpre] at this
        simp [chars] at this
      · have hidrop : s.get ⟨i, hi⟩ ∈ s.drop 1 := by
          rw [List.mem_drop_iff_getElem]
          refine ⟨i - 1, by omega, ?_⟩
          have : 1 + (i - 1) = i := by omega
          simp [this]
        have := List.all_eq_true.1 hdig _ hidrop
        rw [hgi] at this
        exact absurd this (by decide)
  -- evaluate the formatter on this branch
    have hpre' : (chars "+1").isPrefixOf s = true := by
      have : chars "+1" <+: s := ⟨s.drop 2, by rw [← hpre]; exact List.take_append_drop 2 s⟩
      exact List.isPrefixOf_iff_prefix.2 this
    simp only [format_phone_number, PyVal.truthy, PyVal.asStr]
    rw [if_neg, if_neg hat, if_pos]
    · simp [hpre', hlen]
    · simp [hne, hsu]
  · have h1 : (s.drop 2).take 3 ++ (s.drop 2).drop 3 = s.drop 2 :=
      List.take_append_drop 3 (s.drop 2)
    have h2 : (s.drop 2).drop 3 = s.drop 5 := by
      rw [List.drop_drop]
    have h3 : (s.drop 5).take 3 ++ (s.drop 5).drop 3 = s.drop 5 :=
      List.take_append_drop 3 (s.drop 5)
    have h4 : (s.drop 5).drop 3 = s.drop 8 := by
      rw [List.drop_drop]
    rw [List.append_assoc]
    calc (s.drop 2).take 3 ++ ((s.drop 5).take 3 ++ s.drop 8)
        = (s.drop 2).take 3 ++ s.drop 5 := by rw [← h4, h3]
      _ = s.drop 2 := by rw [← h2, h1]

/-- Witness for `format_phone_number_groups` at the concrete identifier
`+15551234567`. -/
theorem format_phone_number_groups_witness :
    ∃ A B C : Str,
      A.length = 3 ∧ B.length = 3 ∧ C.length = 4 ∧
      format_phone_number (.str (chars "+15551234567")) =
        chars "+1 (" ++ A ++ chars ") " ++ B ++ chars "-" ++ C ∧
      A ++ B ++ C = (chars "+15551234567").drop 2 :=
  format_phone_number_groups (chars "+15551234567") (by decide) (by decide)
    (by decide)

/-- A normalized message record as stored in `self.messages` by either
loading path (dict with keys handle_id, text, date, service, account,
is_from_me).  Fields hold raw Python values: the primary path passes tuple
entries through unchanged, so `None` and non-string values can occur. -/
structure Message where
  handle_id : PyVal
  text : PyVal
  date : PyVal
  service : PyVal
  account : PyVal
  is_from_me : PyVal
deriving DecidableEq, Repr

/-- The `'Unknown'` sentinel value. -/
def unknownS : PyVal := .str (chars "Unknown")

/-- Primary-path normalization of one raw tuple
(`MessageAnalyzer.fetch_messages`, lines 103-110): positional access with
defaults for missing positions, values passed through unchanged. -/
def primaryMessageDict (t : List PyVal) : Message where
  handle_id := tupGet t 0 unknownS
  text := tupGet t 1 (.str [])
  date := tupGet t 2 .none
  service := tupGet t 3 unknownS
  account := tupGet t 4 unknownS
  is_from_me := tupGet t 5 (.bool false)

/-- Primary-path retention test (line 113): keep a record when its text is
truthy or its handle is not `'Unknown'`. -/
def primaryKeeps (m : Message) : Bool := m.text.truthy || decide (m.handle_id ≠ unknownS)

/-- The collection built by the primary path from the library's raw tuples
(lines 100-114). -/
def primaryMessages (raw : List (List PyVal)) : List Message :=
  (raw.map primaryMessageDict).filter primaryKeeps

/-- Fallback-path normalization of one SQLite row
(`MessageAnalyzer._fallback_message_reading`, lines 176-194): falsy text
becomes `''` and then `'[attachment/reaction]'`, falsy handle/service/account
become `'Unknown'`, and `is_from_me` is coerced with `bool(...)`.
(The `isinstance(text, bytes)` re-decoding branch is vacuous here because
the value model has no bytes variant.) -/
def fallbackMessageDict (r : List PyVal) : Message :=
  let text0 := if (tupGet r 1 .none).truthy then tupGet r 1 .none else .str []
  { handle_id := pyOr (tupGet r 0 .none) unknownS
    text := pyOr text0 (.str (chars "[attachment/reaction]"))
    date := tupGet r 2 .none
    service := pyOr (tupGet r 3 .none) unknownS
    account := pyOr (tupGet r 4 .none) unknownS
    is_from_me := .bool (tupGet r 5 .none).truthy }

/-- Fallback-path retention test (line 197): keep a record iff its handle is
not `'Unknown'`. -/
def fallbackKeeps (m : Message) : Bool := decide (m.handle_id ≠ unknownS)

/-- The collection built by the fallback path from the query's rows
(lines 172-198). -/
def fallbackMessages (rows : List (List PyVal)) : List Message :=
  (rows.map fallbackMessageDict).filter fallbackKeeps

/-- `MessageAnalyzer._fallback_message_reading` (lines 133-217).  The SQLite
interaction is abstracted as its outcome: `.error` when connecting or
querying raises, `.ok (count, rows)` with the `COUNT(*)` result and the rows
returned by the `SELECT`.  Returns the method's boolean result together with
the message collection left in `self.messages` (initially empty). -/
def fallback_message_reading (db : Except Str (Nat × List (List PyVal))) :
    Bool × List Message :=
  match db with
  | .error _ => (false, [])
  | .ok (count, rows) =>
    if count = 0 then (true, [])
    else
      let msgs := fallbackMessages rows
      if msgs ≠ [] then (true, msgs) else (false, msgs)

/-- `MessageAnalyzer.fetch_messages` (lines 67-131).  The imessage_reader
library call (together with the system/database validation preceding it) is
abstracted as its outcome `primary`; every failure there is caught and
routed to `_fallback_message_reading`. -/
def fetch_messages (primary : Except Str (List (List PyVal)))
    (db : Except Str (Nat × List (List PyVal))) : Bool × List Message :=
  match primary with
  | .ok raw => if raw = [] then (true, []) else (true, primaryMessages raw)
  | .error _ => fallback_message_reading db

/-- `tupGet` does not depend on the default at an index where the
default-free access yields a non-`None` value. -/
theorem tupGet_of_ne_none {r : List PyVal} {i : Nat} {v : PyVal}
    (h : tupGet r i PyVal.none = v) (hv : v ≠ PyVal.none) (d : PyVal) :
    tupGet r i d = v := by
  unfold tupGet at *
  split at h
  · rwa [dif_pos]
  · exact absurd h.symm hv

/-- C1 counterexample: a row with a known handle but empty text is retained
by both paths, yet the two paths give it different `text` values (primary
keeps `''`, fallback substitutes `'[attachment/reaction]'`), so the two
collections differ. -/
theorem normalization_paths_differ :
    let r : List PyVal := [.str (chars "+15551234567"), .str [], .int 5,
      .str (chars "iMessage"), .str (chars "acct"), .int 0]
    primaryKeeps (primaryMessageDict r) = true ∧
    fallbackKeeps (fallbackMessageDict r) = true ∧
    (primaryMessageDict r).text ≠ (fallbackMessageDict r).text ∧
    primaryMessages [r] ≠ fallbackMessages [r] := by
  refine ⟨by decide, by decide, by decide, by decide⟩

/-- C1 amended: when the primary path fails, `fetch_messages` hands over to
`_fallback_message_reading`; and on any row whose handle is a non-empty
string other than `'Unknown'`, whose text, service and account are non-empty
strings, and whose `is_from_me` is already boolean, the two normalizations
retain the row and produce identical `Message` values. -/
theorem fallback_refines_primary (e : Str)
    (db : Except Str (Nat × List (List PyVal))) (r : List PyVal)
    (hh : ∃ h : Str, tupGet r 0 .none = .str h ∧ h ≠ [] ∧ h ≠ chars "Unknown")
    (ht : ∃ t : Str, tupGet r 1 .none = .str t ∧ t ≠ [])
    (hs : ∃ sv : Str, tupGet r 3 .none = .str sv ∧ sv ≠ [])
    (ha : ∃ ac : Str, tupGet r 4 .none = .str ac ∧ ac ≠ [])
    (hf : ∃ b : Bool, tupGet r 5 .none = .bool b) :
    fetch_messages (.error e) db = fallback_message_reading db ∧
    primaryMessageDict r = fallbackMessageDict r ∧
    primaryKeeps (primaryMessageDict r) = true ∧
    fallbackKeeps (fallbackMessageDict r) = true := by
  obtain ⟨h, hh0, hh1, hh2⟩ := hh
  obtain ⟨t, ht0, ht1⟩ := ht
  obtain ⟨sv, hs0, hs1⟩ := hs
  obtain ⟨ac, ha0, ha1⟩ := ha
  obtain ⟨b, hf0⟩ := hf
  have hh' := tupGet_of_ne_none hh0 (by simp) unknownS
  have ht' := tupGet_of_ne_none ht0 (by simp) (.str [])
  have hs' := tupGet_of_ne_none hs0 (by simp) unknownS
  have ha' := tupGet_of_ne_none ha0 (by simp) unknownS
  have hf' := tupGet_of_ne_none hf0 (by simp) (.bool false)
  refine ⟨rfl, ?_, ?_, ?_⟩
  · simp only [primaryMessageDict, fallbackMessageDict, hh', ht', hs', ha',
      hf', hh0, ht0, hs0, ha0, hf0, PyVal.truthy, pyOr]
    simp only [ht1, hh1, hs1, ha1, ne_eq, decide_not]
    simp [PyVal.truthy, ht1, hh1, hs1, ha1]
  · simp [primaryKeeps, primaryMessageDict, ht', PyVal.truthy, ht1]
  · simp only [fallbackKeeps, fallbackMessageDict]
    have htr : (PyVal.str h).truthy = true := by simp [PyVal.truthy, hh1]
    simp only [hh0]
    simp [pyOr, htr]
    intro hc
    exact hh2 (by injection hc)

/-- Witness for `fallback_refines_primary` on a fully populated row. -/
theorem fallback_refines_primary_witness :
    fetch_messages (.error (chars "boom")) (.ok (0, [])) =
      fallback_message_reading (.ok (0, [])) ∧
    primaryMessageDict [.str (chars "+15551234567"), .str (chars "hello"),
      .int 5, .str (chars "iMessage"), .str (chars "acct"), .bool false] =
    fallbackMessageDict [.str (chars "+15551234567"), .str (chars "hello"),
      .int 5, .str (chars "iMessage"), .str (chars "acct"), .bool false] ∧
    primaryKeeps (primaryMessageDict [.str (chars "+15551234567"),
      .str (chars "hello"), .int 5, .str (chars "iMessage"),
      .str (chars "acct"), .bool false]) = true ∧
    fallbackKeeps (fallbackMessageDict [.str (chars "+15551234567"),
      .str (chars "hello"), .int 5, .str (chars "iMessage"),
      .str (chars "acct"), .bool false]) = true :=
  fallback_refines_primary (chars "boom") (.ok (0, []))
    [.str (chars "+15551234567"), .str (chars "hello"), .int 5,
      .str (chars "iMessage"), .str (chars "acct"), .bool false]
    ⟨chars "+15551234567", by decide, by decide, by decide⟩
    ⟨chars "hello", by decide, by decide⟩
    ⟨chars "iMessage", by decide, by decide⟩
    ⟨chars "acct", by decide, by decide⟩
    ⟨false, by decide⟩

/-- C2 counterexample: the database layer succeeds (`.ok`: connection and
both queries work, one row reported), yet the load returns `false`, because
the row's `NULL` handle makes every normalized message invalid.  So a
`false` result does not imply a query or connection failure. -/
theorem load_false_without_db_failure :
    fallback_message_reading (.ok (1, [[PyVal.none, .str (chars "hi"),
      .int 1, .str (chars "iMessage"), .str (chars "a"), .int 0]]))
      = (false, []) := by decide

/-- C2 amended: the load result is `true` whenever the primary path
succeeds; on the fallback path it is `true` iff the row count is zero (valid
empty database) or at least one row survives normalization, and it is
`false` both when the database layer fails outright and when rows exist but
none survives normalization. -/
theorem load_result_characterization :
    (∀ raw db, (fetch_messages (.ok raw) db).1 = true) ∧
    (∀ e : Str, (fallback_message_reading (.error e)).1 = false) ∧
    (∀ count rows, (fallback_message_reading (.ok (count, rows))).1 = true ↔
      (count = 0 ∨ fallbackMessages rows ≠ [])) := by
  refine ⟨?_, fun e => rfl, ?_⟩
  · intro raw db
    by_cases h : raw = [] <;> simp [fetch_messages, h]
  · intro count rows
    unfold fallback_message_reading
    rcases Nat.eq_zero_or_pos count with h0 | hpos
    · simp [h0]
    · have : count ≠ 0 := by omega
      simp only [this, if_neg, if_false]
      by_cases hm : fallbackMessages rows = []
      · simp [hm, this]
      · simp [hm, this]

/-- The display sender of a stored message:
`self._format_phone_number(msg.get('handle_id', 'Unknown'))`. -/
def senderOf (m : Message) : Str := format_phone_number m.handle_id

/-- The normalized contact query: `contact.lower().strip()` (line 395). -/
def contactNorm (contact : Str) : Str := pyStrip (pyLower contact)

/-- The bidirectional case-insensitive matching test of
`get_conversation` (lines 405-410). -/
def matchesContact (contact : Str) (m : Message) : Bool :=
  let cn := contactNorm contact
  let sender := senderOf m
  containsSub (pyLower sender) cn ||
  containsSub (pyLower m.handle_id.asStr) cn ||
  containsSub cn (pyLower sender) ||
  containsSub cn (pyLower m.handle_id.asStr)

/-- One entry of the conversation message list (lines 421-428). -/
structure ConvMessage where
  text : Str
  timestamp : Option Str
  sender : Str
  direction : Str
  service : PyVal
  char_count : Nat
deriving DecidableEq, Repr

/-- Build a conversation entry from a stored message (lines 421-428):
`msg.get('text','') or ''`, `str(date) if date else None`, `'me'`/sender and
`'sent'`/`'received'` by `is_from_me` truthiness, service passed through,
`char_count = len(text or '')`. -/
def toConvMessage (m : Message) : ConvMessage :=
  { text := if m.text.truthy then m.text.asStr else []
    timestamp := if m.date.truthy then some m.date.pyStr else Option.none
    sender := if m.is_from_me.truthy then chars "me" else senderOf m
    direction := if m.is_from_me.truthy then chars "sent" else chars "received"
    service := m.service
    char_count := (if m.text.truthy then m.text.asStr else []).length }

/-- The matched conversation entries, in collection order (lines 398-428). -/
def matchedRecords (contact : Str) (msgs : List Message) : List ConvMessage :=
  (msgs.filter (matchesContact contact)).map toConvMessage

/-- The sort key of line 436: `x['timestamp'] or '1970-01-01T00:00:00'`. -/
def tsKey (c : ConvMessage) : Str :=
  match c.timestamp with
  | some s => if s = [] then chars "1970-01-01T00:00:00" else s
  | Option.none => chars "1970-01-01T00:00:00"

/-- The comparison used to sort conversation entries chronologically:
lexicographic order on the timestamp key. -/
def convLe (a b : ConvMessage) : Prop := tsKey a ≤ tsKey b

instance : DecidableRel convLe := fun a b =>
  (inferInstance : Decidable (tsKey a ≤ tsKey b))

instance : IsTotal ConvMessage convLe := ⟨fun a b => le_total (tsKey a) (tsKey b)⟩

instance : IsTrans ConvMessage convLe :=
  ⟨fun _ _ _ h h' => le_trans h h'⟩

/-- The chronologically sorted matched entries (line 436).  Python's
`list.sort` is a stable ascending sort, which coincides with insertion
sort on the same key. -/
def sortedRecords (contact : Str) (msgs : List Message) : List ConvMessage :=
  List.insertionSort convLe (matchedRecords contact msgs)

/-- The truncation of lines 439-440: `msgs = msgs[-limit:]` when
`len(msgs) > limit`.  Python's `msgs[-0:]` is the whole list, hence the
`limit = 0` case. -/
def pyTailSlice (l : List ConvMessage) (limit : Nat) : List ConvMessage :=
  if l.length > limit then
    (if limit = 0 then l else l.drop (l.length - limit))
  else l

/-- The window of entries kept by `get_conversation` (lines 436-440). -/
def keptRecords (contact : Str) (limit : Nat) (msgs : List Message) :
    List ConvMessage :=
  pyTailSlice (sortedRecords contact msgs) limit

/-- Python `round(x, 1)` on the exact rational value.  (CPython rounds the
nearest binary float half to even; the claims checked here tolerate any
tie-breaking, so round-half-up on exact rationals is used.) -/
def round1 (q : ℚ) : ℚ := (round (10 * q) : ℤ) / 10

/-- The success payload of `get_conversation` (lines 452-468). -/
structure Conversation where
  contact : Str
  matched_contact : Str
  total_messages : Nat
  my_messages : Nat
  their_messages : Nat
  my_percentage : ℚ
  their_percentage : ℚ
  avg_message_length : ℚ
  first_message : Option Str
  last_message : Option Str
  messages_shown : Nat
  messages_limited : Bool
  messages : List ConvMessage
deriving DecidableEq, Repr

/-- Assembly of the success payload from the kept window
(lines 442-468). -/
def mkConversation (contact : Str) (limit : Nat) (kept : List ConvMessage) :
    Conversation :=
  let total := kept.length
  let my := kept.countP (fun c => c.sender = chars "me")
  let their := total - my
  { contact := contact
    matched_contact :=
      match kept.head? with
      | some c0 => if c0.sender ≠ chars "me" then c0.sender else contact
      | Option.none => contact
    total_messages := total
    my_messages := my
    their_messages := their
    my_percentage :=
      if total > 0 then round1 ((my : ℚ) / (total : ℚ) * 100) else 0
    their_percentage :=
      if total > 0 then round1 ((their : ℚ) / (total : ℚ) * 100) else 0
    avg_message_length :=
      round1 (if total > 0 then
        ((kept.map (fun c => (c.text.length : ℚ))).sum / (total : ℚ)) else 0)
    first_message :=
      match kept.head? with
      | some c0 => c0.timestamp
      | Option.none => Option.none
    last_message :=
      match kept.getLast? with
      | some cN => cN.timestamp
      | Option.none => Option.none
    messages_shown := kept.length
    messages_limited := decide (kept.length = limit)
    messages := kept }

/-- The error message of line 432. -/
def noConvError (contact : Str) : Str :=
  chars "No conversation found with '" ++ contact ++
    chars "'. Try a different contact name, phone number, or email address."

/-- `MessageAnalyzer.get_conversation` (lines 379-468).  `days_back` is
accepted but unused: the date filter of lines 416-419 is commented out in
the source.  Error dictionaries are modelled as `.error`, success
dictionaries as `.ok`. -/
def get_conversation (contact : Str) (limit : Nat) (days_back : Option Int)
    (msgs : List Message) : Except Str Conversation :=
  if msgs = [] then .error (chars "No messages loaded")
  else if matchedRecords contact msgs = [] then .error (noConvError contact)
  else .ok (mkConversation contact limit (keptRecords contact limit msgs))

/-- Model-fidelity domain: the Python code calls string methods on
`handle_id` and takes `len` of truthy `text`, so the embedding is faithful
on collections whose handles are strings and whose texts are strings or
`None`. -/
def wfMessage (m : Message) : Bool :=
  (match m.handle_id with | .str _ => true | _ => false) &&
  (match m.text with | .str _ => true | .none => true | _ => false)

/-- Sorting does not change the number of matched entries. -/
theorem sortedRecords_length (contact : Str) (msgs : List Message) :
    (sortedRecords contact msgs).length = (matchedRecords contact msgs).length :=
  (List.perm_insertionSort convLe (matchedRecords contact msgs)).length_eq

/-- C3: on a collection with exactly 5 entries matching the query,
`get_conversation` with `limit = 2` succeeds, its message list is the tail
(last two entries) of the chronologically sorted matches — the two most
recent — and `messages_limited` is `true`. -/
theorem get_conversation_keeps_recent_two (contact : Str) (msgs : List Message)
    (hwf : msgs.all wfMessage = true)
    (h5 : (matchedRecords contact msgs).length = 5) :
    ∃ conv, get_conversation contact 2 Option.none msgs = Except.ok conv ∧
      List.Sorted convLe (sortedRecords contact msgs) ∧
      conv.messages = (sortedRecords contact msgs).drop 3 ∧
      conv.messages.length = 2 ∧
      conv.messages_limited = true := by
  have hm : matchedRecords contact msgs ≠ [] := by
    intro h; rw [h] at h5; simp at h5
  have hmsgs : msgs ≠ [] := by
    intro h
    subst h
    simp [matchedRecords] at hm
  have hslen : (sortedRecords contact msgs).length = 5 := by
    rw [sortedRecords_length]; exact h5
  have hkept : keptRecords contact 2 msgs = (sortedRecords contact msgs).drop 3 := by
    simp only [keptRecords, pyTailSlice, hslen]
    norm_num
  refine ⟨mkConversation contact 2 (keptRecords contact 2 msgs), ?_, ?_, ?_, ?_, ?_⟩
  · unfold get_conversation
    rw [if_neg hmsgs, if_neg hm]
  · exact List.sorted_insertionSort convLe (matchedRecords contact msgs)
  · simp [mkConversation, hkept]
  · simp [mkConversation, hkept, hslen]
  · simp only [mkConversation, hkept]
    simp [List.length_drop, hslen]

/-- A concrete 5-message collection, all matching the query `555`. -/
def fiveMsgs : List Message :=
  [⟨.str (chars "+15551234567"), .str (chars "m one"), .str (chars "2024-01-03"),
    .str (chars "iMessage"), .str (chars "x"), .bool false⟩,
   ⟨.str (chars "+15551234567"), .str (chars "m two"), .str (chars "2024-01-01"),
    .str (chars "iMessage"), .str (chars "x"), .bool true⟩,
   ⟨.str (chars "+15551234567"), .str (chars "m three"), .str (chars "2024-01-05"),
    .str (chars "iMessage"), .str (chars "x"), .bool false⟩,
   ⟨.str (chars "+15551234567"), .str (chars "m four"), .str (chars "2024-01-02"),
    .str (chars "iMessage"), .str (chars "x"), .bool true⟩,
   ⟨.str (chars "+15551234567"), .str (chars "m five"), .str (chars "2024-01-04"),
    .str (chars "iMessage"), .str (chars "x"), .bool false⟩]

/-- Witness for `get_conversation_keeps_recent_two` on `fiveMsgs`. -/
theorem get_conversation_keeps_recent_two_witness :
    ∃ conv, get_conversation (chars "555") 2 Option.none fiveMsgs = Except.ok conv ∧
      List.Sorted convLe (sortedRecords (chars "555") fiveMsgs) ∧
      conv.messages = (sortedRecords (chars "555") fiveMsgs).drop 3 ∧
      conv.messages.length = 2 ∧
      conv.messages_limited = true :=
  get_conversation_keeps_recent_two (chars "555") fiveMsgs (by decide) (by decide)

/-- C4: on a non-empty collection in which no message matches the query,
`get_conversation` returns the explicit "no conversation found" error
result — never a success with an empty message list. -/
theorem get_conversation_no_match (contact : Str) (limit : Nat)
    (d : Option Int) (msgs : List Message)
    (hne : msgs ≠ []) (hwf : msgs.all wfMessage = true)
    (hnm : ∀ m ∈ msgs, matchesContact contact m = false) :
    get_conversation contact limit d msgs = .error (noConvError contact) := by
  have hm : matchedRecords contact msgs = [] := by
    unfold matchedRecords
    have : msgs.filter (matchesContact contact) = [] := by
      rw [List.filter_eq_nil_iff]
      intro a ha
      simp [hnm a ha]
    rw [this, List.map_nil]
  unfold get_conversation
  rw [if_neg hne, if_pos hm]

/-- Witness for `get_conversation_no_match`: query `zzz-no-match` against a
one-message collection. -/
theorem get_conversation_no_match_witness :
    get_conversation (chars "zzz-no-match") 10 Option.none
      [⟨.str (chars "+15551234567"), .str (chars "hello"),
        .str (chars "2024-01-03"), .str (chars "iMessage"), .str (chars "x"),
        .bool false⟩] = .error (noConvError (chars "zzz-no-match")) :=
  get_conversation_no_match (chars "zzz-no-match") 10 Option.none
    [⟨.str (chars "+15551234567"), .str (chars "hello"),
      .str (chars "2024-01-03"), .str (chars "iMessage"), .str (chars "x"),
      .bool false⟩] (by decide) (by decide) (by decide)

/-- A concrete collection with exactly two entries matching the query `555`. -/
def twoMsgs : List Message :=
  [⟨.str (chars "+15551234567"), .str (chars "hi"), .str (chars "2024-01-01"),
    .str (chars "iMessage"), .str (chars "x"), .bool false⟩,
   ⟨.str (chars "+15551234567"), .str (chars "yo"), .str (chars "2024-01-02"),
    .str (chars "iMessage"), .str (chars "x"), .bool true⟩]

/-- C8 counterexample: with exactly 2 matched messages and `limit = 2` no
truncation happens (the matched set does not exceed the limit), yet
`messages_limited` is reported `true`, because the code computes the flag as
`len(messages) == limit` after truncation. -/
theorem limited_true_without_truncation :
    (matchedRecords (chars "555") twoMsgs).length = 2 ∧
    (match get_conversation (chars "555") 2 Option.none twoMsgs with
     | .ok conv => conv.messages_limited
     | .error _ => false) = true := by
  constructor
  · decide
  · decide

/-- C8 amended: for a positive limit, a successful `get_conversation` result
reports `messages_limited = true` iff the matched set is at least as large
as the limit (equivalently, iff exactly `limit` messages are returned) —
which is implied by truncation but also occurs when the matched count equals
the limit exactly. -/
theorem messages_limited_iff (contact : Str) (limit : Nat) (msgs : List Message)
    (hpos : 0 < limit) (hwf : msgs.all wfMessage = true)
    (conv : Conversation)
    (hok : get_conversation contact limit Option.none msgs = .ok conv) :
    (conv.messages_limited = true ↔ limit ≤ (matchedRecords contact msgs).length) := by
  unfold get_conversation at hok
  by_cases h1 : msgs = []
  · rw [if_pos h1] at hok; cases hok
  rw [if_neg h1] at hok
  by_cases h2 : matchedRecords contact msgs = []
  · rw [if_pos h2] at hok; cases hok
  rw [if_neg h2] at hok
  have hconv : conv = mkConversation contact limit (keptRecords contact limit msgs) := by
    cases hok; rfl
  subst hconv
  have hslen : (sortedRecords contact msgs).length = (matchedRecords contact msgs).length :=
    sortedRecords_length contact msgs
  have hl0 : limit ≠ 0 := by omega
  simp only [mkConversation, keptRecords, pyTailSlice, hslen]
  by_cases hgt : (matchedRecords contact msgs).length > limit
  · rw [if_pos hgt, if_neg hl0]
    have hdl : ((sortedRecords contact msgs).drop
        ((matchedRecords contact msgs).length - limit)).length = limit := by
      rw [List.length_drop, hslen]
      omega
    simp only [hdl]
    simp
    omega
  · rw [if_neg hgt]
    simp only [hslen]
    constructor
    · intro h
      have := of_decide_eq_true h
      omega
    · intro h
      have : (matchedRecords contact msgs).length = limit := by omega
      simp [this]

/-- Witness for `messages_limited_iff`: one matched message with
`limit = 1`. -/
theorem messages_limited_iff_witness :
    ((mkConversation (chars "555") 1 (keptRecords (chars "555") 1
        [⟨.str (chars "+15551234567"), .str (chars "hi"),
          .str (chars "2024-01-01"), .str (chars "iMessage"),
          .str (chars "x"), .bool false⟩])).messages_limited = true ↔
      1 ≤ (matchedRecords (chars "555")
        [⟨.str (chars "+15551234567"), .str (chars "hi"),
          .str (chars "2024-01-01"), .str (chars "iMessage"),
          .str (chars "x"), .bool false⟩]).length) :=
  messages_limited_iff (chars "555") 1
    [⟨.str (chars "+15551234567"), .str (chars "hi"),
      .str (chars "2024-01-01"), .str (chars "iMessage"),
      .str (chars "x"), .bool false⟩]
    (by decide) (by decide) _ (by rfl)

/-- C9: `days_back` is accepted but is a no-op — the date filter is
commented out in the source — so the result never depends on it. -/
theorem days_back_noop (contact : Str) (limit : Nat) (d : Option Int)
    (msgs : List Message) :
    get_conversation contact limit d msgs =
      get_conversation contact limit Option.none msgs := rfl

/-- `Char.ofNat` on a valid codepoint round-trips through `toNat`. -/
theorem toNat_ofNat_valid {n : Nat} (h : n.isValidChar) :
    (Char.ofNat n).toNat = n := by
  simp only [Char.ofNat, dif_pos h]
  rfl

/-- The character order coincides with the order of codepoints. -/
theorem char_le_iff_toNat (a b : Char) : a ≤ b ↔ a.toNat ≤ b.toNat := by
  rw [Char.le_def]
  rfl

/-- `lowerChar` never produces an upper-case ASCII letter. -/
theorem lowerChar_not_upper (c : Char) :
    ¬('A' ≤ lowerChar c ∧ lowerChar c ≤ 'Z') := by
  have hA : ('A' : Char).toNat = 65 := rfl
  have hZ : ('Z' : Char).toNat = 90 := rfl
  unfold lowerChar
  by_cases h : 'A' ≤ c ∧ c ≤ 'Z'
  · rw [if_pos h]
    have h65 : 65 ≤ c.toNat := by
      have := (char_le_iff_toNat 'A' c).1 h.1
      omega
    have h90 : c.toNat ≤ 90 := by
      have := (char_le_iff_toNat c 'Z').1 h.2
      omega
    have hv : ((c.toNat + 32) : Nat).isValidChar := Or.inl (by omega)
    intro hc
    have := (char_le_iff_toNat _ 'Z').1 hc.2
    rw [toNat_ofNat_valid hv] at this
    omega
  · rw [if_neg h]
    exact h

/-- Lower-casing is idempotent. -/
theorem lowerChar_idem (c : Char) : lowerChar (lowerChar c) = lowerChar c := by
  conv_lhs => rw [lowerChar]
  rw [if_neg (lowerChar_not_upper c)]

/-- Python `str.split()`: split on runs of whitespace, discarding empty
pieces.  `acc` is the reversed current word. -/
def pySplitAux : List Char → List Char → List (List Char)
  | [], acc => if acc = [] then [] else [acc.reverse]
  | c :: rest, acc =>
    if c.isWhitespace then
      (if acc = [] then pySplitAux rest [] else acc.reverse :: pySplitAux rest [])
    else pySplitAux rest (c :: acc)

/-- Python `s.split()`. -/
def pySplit (s : Str) : List Str := pySplitAux s []

/-- Every character of a piece produced by `pySplitAux` comes from the
input or the accumulator. -/
theorem mem_of_mem_pySplitAux :
    ∀ {s acc : List Char} {w : List Char}, w ∈ pySplitAux s acc →
      ∀ c ∈ w, c ∈ s ∨ c ∈ acc := by
  intro s
  induction s with
  | nil =>
    intro acc w hw c hc
    unfold pySplitAux at hw
    by_cases hacc : acc = []
    · rw [if_pos hacc] at hw
      simp at hw
    · rw [if_neg hacc] at hw
      simp only [List.mem_singleton] at hw
      subst hw
      exact Or.inr (List.mem_reverse.1 hc)
  | cons a rest ih =>
    intro acc w hw c hc
    unfold pySplitAux at hw
    by_cases hws : a.isWhitespace
    · rw [if_pos hws] at hw
      by_cases hacc : acc = []
      · rw [if_pos hacc] at hw
        rcases ih hw c hc with h | h
        · exact Or.inl (List.mem_cons_of_mem a h)
        · simp at h
      · rw [if_neg hacc] at hw
        rcases List.mem_cons.1 hw with hweq | hw'
        · subst hweq
          exact Or.inr (List.mem_reverse.1 hc)
        · rcases ih hw' c hc with h | h
          · exact Or.inl (List.mem_cons_of_mem a h)
          · simp at h
    · rw [if_neg hws] at hw
      rcases ih hw c hc with h | h
      · exact Or.inl (List.mem_cons_of_mem a h)
      · rcases List.mem_cons.1 h with hca | hca
        · subst hca
          exact Or.inl (List.mem_cons_self c rest)
        · exact Or.inr hca

/-- The punctuation removal of line 271:
`.replace(',','').replace('.','').replace('!','').replace('?','')`. -/
def removePunct (s : Str) : Str :=
  s.filter (fun c => !(c = ',' || c = '.' || c = '!' || c = '?'))

/-- The attachment patterns filtered out by `word_frequency` (line 263). -/
def attachmentPatterns : List Str :=
  [chars "<message", chars "attachment.>", chars "text,", chars "attachment",
   chars "shared", chars "location"]

/-- The stop-word set of `word_frequency` (line 265). -/
def stopWords : List Str :=
  [chars "the", chars "and", chars "but", chars "with", chars "for",
   chars "you", chars "are", chars "was", chars "this", chars "that",
   chars "have", chars "had"]

/-- The tokens contributed by one message (lines 267-274): skip falsy texts
and texts containing an attachment pattern; lower-case, strip punctuation,
split on whitespace, then drop tokens of length ≤ 2 and stop words. -/
def extractWords (m : Message) : List Str :=
  if m.text.truthy &&
      !(attachmentPatterns.any (fun p => containsSub (pyLower m.text.asStr) p)) then
    (pySplit (removePunct (pyLower m.text.asStr))).filter
      (fun w => decide (w.length > 2) && decide (w ∉ stopWords))
  else []

/-- `all_words`, accumulated over the collection in order (lines 261-274). -/
def allWords (msgs : List Message) : List Str := (msgs.map extractWords).flatten

/-- Insertion-order deduplication: the keys of a Python dict/Counter built
by insertion, in first-occurrence order. -/
def firstOccurAux : List Str → List Str → List Str
  | [], _ => []
  | w :: rest, seen =>
    if w ∈ seen then firstOccurAux rest seen
    else w :: firstOccurAux rest (w :: seen)

/-- The distinct words in first-occurrence order. -/
def firstOccur (l : List Str) : List Str := firstOccurAux l []

/-- `Counter(all_words)` as an association list in key-insertion order. -/
def countOcc (ws : List Str) : List (Str × Nat) :=
  (firstOccur ws).map (fun w => (w, ws.count w))

/-- The descending-count comparison of `Counter.most_common`. -/
def byCountGe (a b : Str × Nat) : Prop := b.2 ≤ a.2

instance : DecidableRel byCountGe := fun a b =>
  (inferInstance : Decidable (b.2 ≤ a.2))

instance : IsTotal (Str × Nat) byCountGe := ⟨fun a b => le_total b.2 a.2⟩

instance : IsTrans (Str × Nat) byCountGe :=
  ⟨fun _ _ _ h h' => le_trans h' h⟩

/-- `MessageAnalyzer.word_frequency` (lines 256-277).  `most_common(top_n)`
is the stable descending sort of the counter's items by count, truncated to
`top_n`; the result dict is modelled as the association list in that
order. -/
def word_frequency (msgs : List Message) (top_n : Nat) :
    Except Str (List (Str × Nat)) :=
  if msgs = [] then .error (chars "No messages loaded")
  else .ok ((List.insertionSort byCountGe (countOcc (allWords msgs))).take top_n)

/-- The `get_word_frequency` MCP tool (mcp_server.py lines 44-59): it calls
`analyzer.word_frequency()` with the **default** `top_n = 10` and then
truncates the resulting items to `top_n`
(`dict(list(analyzer.word_frequency().items())[:top_n])`). -/
def get_word_frequency (msgs : List Message) (top_n : Nat) :
    Except Str (List (Str × Nat)) :=
  match word_frequency msgs 10 with
  | .ok l => .ok (l.take top_n)
  | .error e => .error e

/-- Every token contributed by a message has length > 2, is not a stop
word, and is fixed by lower-casing. -/
theorem extractWords_props {m : Message} {w : Str} (hw : w ∈ extractWords m) :
    w.length > 2 ∧ w ∉ stopWords ∧ pyLower w = w := by
  unfold extractWords at hw
  split at hw
  · rcases List.mem_filter.1 hw with ⟨hmem, hpred⟩
    simp only [Bool.and_eq_true, decide_eq_true_eq] at hpred
    refine ⟨hpred.1, hpred.2, ?_⟩
    have hchar : ∀ c ∈ w, lowerChar c = c := by
      intro c hc
      rcases mem_of_mem_pySplitAux hmem c hc with h1 | h1
      · have h2 : c ∈ pyLower m.text.asStr := List.mem_of_mem_filter h1
        rcases List.mem_map.1 h2 with ⟨c', _, hcc⟩
        rw [← hcc, lowerChar_idem]
      · simp at h1
    unfold pyLower
    rw [List.map_congr_left hchar]
    simp
  · simp at hw

/-- Deduplication only returns elements of the input. -/
theorem mem_of_mem_firstOccurAux :
    ∀ {l seen : List Str} {w : Str}, w ∈ firstOccurAux l seen → w ∈ l := by
  intro l
  induction l with
  | nil => intro seen w hw; simp [firstOccurAux] at hw
  | cons a rest ih =>
    intro seen w hw
    unfold firstOccurAux at hw
    by_cases hs : a ∈ seen
    · rw [if_pos hs] at hw
      exact List.mem_cons_of_mem a (ih hw)
    · rw [if_neg hs] at hw
      rcases List.mem_cons.1 hw with h | h
      · subst h; exact List.mem_cons_self w rest
      · exact List.mem_cons_of_mem a (ih h)

/-- Every key of the counter is a word of the input. -/
theorem mem_of_mem_countOcc {ws : List Str} {p : Str × Nat}
    (hp : p ∈ countOcc ws) : p.1 ∈ ws := by
  rcases List.mem_map.1 hp with ⟨w, hw, hpw⟩
  rw [← hpw]
  exact mem_of_mem_firstOccurAux hw

/-- C5: a successful `word_frequency(top_n = N)` returns at most `N`
entries; every returned token is fixed by lower-casing, has length strictly
greater than 2, and is not a stop word; and the counts are non-increasing
in the returned order. -/
theorem word_frequency_spec (msgs : List Message) (N : Nat)
    (hwf : msgs.all wfMessage = true)
    (l : List (Str × Nat)) (hok : word_frequency msgs N = .ok l) :
    l.length ≤ N ∧
    (∀ p ∈ l, pyLower p.1 = p.1 ∧ p.1.length > 2 ∧ p.1 ∉ stopWords) ∧
    List.Pairwise (fun a b : Str × Nat => b.2 ≤ a.2) l := by
  unfold word_frequency at hok
  by_cases hm : msgs = []
  · rw [if_pos hm] at hok; cases hok
  rw [if_neg hm] at hok
  have hl : l = (List.insertionSort byCountGe (countOcc (allWords msgs))).take N := by
    cases hok; rfl
  subst hl
  refine ⟨?_, ?_, ?_⟩
  · rw [List.length_take]
    exact min_le_left _ _
  · intro p hp
    have hp1 : p ∈ List.insertionSort byCountGe (countOcc (allWords msgs)) :=
      List.mem_of_mem_take hp
    have hp2 : p ∈ countOcc (allWords msgs) :=
      (List.perm_insertionSort byCountGe _).mem_iff.1 hp1
    have hp3 : p.1 ∈ allWords msgs := mem_of_mem_countOcc hp2
    rcases List.mem_flatten.1 hp3 with ⟨ws, hws, hpws⟩
    rcases List.mem_map.1 hws with ⟨m, _, hwseq⟩
    subst hwseq
    obtain ⟨h2, hstop, hlow⟩ := extractWords_props hpws
    exact ⟨hlow, h2, hstop⟩
  · have hs : List.Sorted byCountGe
        (List.insertionSort byCountGe (countOcc (allWords msgs))) :=
      List.sorted_insertionSort byCountGe _
    exact List.Pairwise.sublist (List.take_sublist _ _) hs

/-- A concrete one-message collection for the word-frequency witnesses. -/
def wordMsgs : List Message :=
  [⟨.str (chars "+15551234567"), .str (chars "Hello hello WORLD the cat."),
    .str (chars "2024-01-01"), .str (chars "iMessage"), .str (chars "x"),
    .bool false⟩]

/-- Witness for `word_frequency_spec` on `wordMsgs` with `N = 10`. -/
theorem word_frequency_spec_witness :
    ((List.insertionSort byCountGe (countOcc (allWords wordMsgs))).take 10).length ≤ 10 ∧
    (∀ p ∈ (List.insertionSort byCountGe (countOcc (allWords wordMsgs))).take 10,
      pyLower p.1 = p.1 ∧ p.1.length > 2 ∧ p.1 ∉ stopWords) ∧
    List.Pairwise (fun a b : Str × Nat => b.2 ≤ a.2)
      ((List.insertionSort byCountGe (countOcc (allWords wordMsgs))).take 10) :=
  word_frequency_spec wordMsgs 10 (by decide)
    ((List.insertionSort byCountGe (countOcc (allWords wordMsgs))).take 10) rfl

/-- C10: a successful `get_word_frequency(top_n)` at the MCP boundary
returns at most `min top_n 10` entries, because the analyzer is called with
its default `top_n = 10` and the result is then truncated to `top_n`. -/
theorem get_word_frequency_truncates (msgs : List Message) (top_n : Nat)
    (hwf : msgs.all wfMessage = true)
    (l : List (Str × Nat)) (hok : get_word_frequency msgs top_n = .ok l) :
    l.length ≤ min top_n 10 := by
  unfold get_word_frequency at hok
  cases hwf10 : word_frequency msgs 10 with
  | error e => rw [hwf10] at hok; cases hok
  | ok l10 =>
    rw [hwf10] at hok
    have hl : l = l10.take top_n := by cases hok; rfl
    have h10 : l10.length ≤ 10 := by
      unfold word_frequency at hwf10
      by_cases hm : msgs = []
      · rw [if_pos hm] at hwf10; cases hwf10
      · rw [if_neg hm] at hwf10
        have hv : l10 =
            (List.insertionSort byCountGe (countOcc (allWords msgs))).take 10 := by
          cases hwf10; rfl
        rw [hv, List.length_take]
        exact min_le_left _ _
    subst hl
    rw [List.length_take]
    exact le_min (min_le_left _ _) (le_trans (min_le_right _ _) h10)

/-- A concrete one-message collection for the MCP truncation witness. -/
def wordMsgs2 : List Message :=
  [⟨.str (chars "+15551234567"), .str (chars "alpha beta gamma delta"),
    .str (chars "2024-01-01"), .str (chars "iMessage"), .str (chars "x"),
    .bool false⟩]

/-- Witness for `get_word_frequency_truncates` at `top_n = 25`. -/
theorem get_word_frequency_truncates_witness :
    (((List.insertionSort byCountGe (countOcc (allWords wordMsgs2))).take 10).take 25).length
      ≤ min 25 10 :=
  get_word_frequency_truncates wordMsgs2 25 (by decide)
    (((List.insertionSort byCountGe (countOcc (allWords wordMsgs2))).take 10).take 25) rfl

/-- Per-sender aggregate of `conversation_analysis` (message_analyzer.py
lines 294-346).  The per-sender `messages` list and `last_message_date` are
omitted: `conversation_stats`, the function under verification, does not
read them. -/
structure ConvRecord where
  total_count : Nat
  my_messages : Nat
  their_messages : Nat
  total_chars : Nat
  my_ratio : ℚ
  their_ratio : ℚ
  avg_message_length : ℚ
deriving DecidableEq, Repr

/-- The aggregate record for one sender: counts over the messages whose
display sender equals `s`, in collection order (the dict-based fold of
lines 302-344 accumulates exactly these).  The ratio/average keys are only
assigned when `total_count > 0` (lines 340-344); every sender present in
the dict has at least one message, so the guard value 0 is never read. -/
def convRecord (msgs : List Message) (s : Str) : ConvRecord :=
  let ms := msgs.filter (fun m => decide (senderOf m = s))
  let total := ms.length
  let my := ms.countP (fun m => m.is_from_me.truthy)
  let their := ms.countP (fun m => !m.is_from_me.truthy)
  let chs := (ms.map (fun m => m.text.asStr.length)).sum
  { total_count := total
    my_messages := my
    their_messages := their
    total_chars := chs
    my_ratio := if 0 < total then (my : ℚ) / (total : ℚ) else 0
    their_ratio := if 0 < total then (their : ℚ) / (total : ℚ) else 0
    avg_message_length := if 0 < total then (chs : ℚ) / (total : ℚ) else 0 }

/-- `MessageAnalyzer.conversation_analysis` (lines 294-346): the dict of
per-sender records, as an association list in key-insertion order (first
occurrence of each display sender). -/
def conversation_analysis (msgs : List Message) :
    Except Str (List (Str × ConvRecord)) :=
  if msgs = [] then .error (chars "No messages loaded")
  else .ok ((firstOccur (msgs.map senderOf)).map (fun s => (s, convRecord msgs s)))

/-- One entry of `conversation_stats`'s `top_conversations` (lines
364-375). -/
structure ContactStats where
  contact : Str
  total_messages : Nat
  my_messages : Nat
  their_messages : Nat
  my_percentage : ℚ
  their_percentage : ℚ
  avg_message_length : ℚ
  who_talks_more : Str
deriving DecidableEq, Repr

/-- The descending-total comparison of line 355 (`sorted` with
`key=total_count, reverse=True`, a stable descending sort). -/
def byTotalGe (a b : Str × ConvRecord) : Prop :=
  b.2.total_count ≤ a.2.total_count

instance : DecidableRel byTotalGe := fun a b =>
  (inferInstance : Decidable (b.2.total_count ≤ a.2.total_count))

instance : IsTotal (Str × ConvRecord) byTotalGe :=
  ⟨fun a b => le_total b.2.total_count a.2.total_count⟩

instance : IsTrans (Str × ConvRecord) byTotalGe :=
  ⟨fun _ _ _ h h' => le_trans h' h⟩

/-- Assembly of one `top_conversations` entry (lines 364-374). -/
def mkContactStats (p : Str × ConvRecord) : ContactStats :=
  { contact := p.1
    total_messages := p.2.total_count
    my_messages := p.2.my_messages
    their_messages := p.2.their_messages
    my_percentage := round1 (p.2.my_ratio * 100)
    their_percentage := round1 (p.2.their_ratio * 100)
    avg_message_length := round1 p.2.avg_message_length
    who_talks_more := if p.2.my_ratio > 1/2 then chars "Me" else chars "Them" }

/-- The `top_conversations` list for a collection (lines 354-375). -/
def statsList (msgs : List Message) (top_n : Nat) : List ContactStats :=
  ((List.insertionSort byTotalGe
    ((firstOccur (msgs.map senderOf)).map (fun s => (s, convRecord msgs s)))).take
      top_n).map mkContactStats

/-- `MessageAnalyzer.conversation_stats` (lines 348-377): the
`total_conversations` count together with the `top_conversations` list. -/
def conversation_stats (msgs : List Message) (top_n : Nat) :
    Except Str (Nat × List ContactStats) :=
  match conversation_analysis msgs with
  | .error e => .error e
  | .ok convs => .ok (convs.length, statsList msgs top_n)

/-- Counting a predicate and its negation partitions a list. -/
theorem countP_add_countP_not {α : Type} (p : α → Bool) (l : List α) :
    l.countP p + l.countP (fun a => !p a) = l.length := by
  induction l with
  | nil => simp
  | cons a t ih =>
    by_cases h : p a <;> simp [List.countP_cons, h, ← ih] <;> omega

/-- `round(·, 1)` moves a rational by at most 1/20. -/
theorem round1_close (q : ℚ) : |round1 q - q| ≤ 1 / 20 := by
  unfold round1
  have h := abs_sub_round (10 * q)
  rw [abs_sub_comm] at h
  have heq : (round (10 * q) : ℚ) / 10 - q = ((round (10 * q) : ℚ) - 10 * q) / 10 := by
    ring
  rw [heq, abs_div]
  have h10 : |(10 : ℚ)| = 10 := by norm_num
  rw [h10]
  calc |(round (10 * q) : ℚ) - 10 * q| / 10 ≤ (1 / 2) / 10 := by
        apply div_le_div_of_nonneg_right h ?_ |>.trans_eq rfl
        · norm_num
      _ = 1 / 20 := by norm_num

/-- Rounded complementary percentages sum to 100 within 1/10. -/
theorem pct_sum_close (my their total : Nat) (htot : 0 < total)
    (hsum : my + their = total) :
    |round1 ((my : ℚ) / (total : ℚ) * 100) +
      round1 ((their : ℚ) / (total : ℚ) * 100) - 100| ≤ 1 / 10 := by
  have htQ : (total : ℚ) ≠ 0 := by
    exact_mod_cast Nat.pos_iff_ne_zero.1 htot
  have hab : (my : ℚ) / (total : ℚ) * 100 + (their : ℚ) / (total : ℚ) * 100 = 100 := by
    have hc : (my : ℚ) + (their : ℚ) = (total : ℚ) := by
      exact_mod_cast congrArg (Nat.cast : Nat → ℚ) hsum
    field_simp
    linarith [hc]
  set a := (my : ℚ) / (total : ℚ) * 100 with ha
  set b := (their : ℚ) / (total : ℚ) * 100 with hb
  have hsplit : round1 a + round1 b - 100 = (round1 a - a) + (round1 b - b) := by
    rw [← hab]
    ring
  rw [hsplit]
  calc |(round1 a - a) + (round1 b - b)| ≤ |round1 a - a| + |round1 b - b| :=
        abs_add _ _
    _ ≤ 1 / 20 + 1 / 20 := add_le_add (round1_close a) (round1_close b)
    _ = 1 / 10 := by norm_num

/-- C6: every contact entry returned by `conversation_stats` satisfies
`my_messages + their_messages = total_messages`, and for entries with a
positive total the two rounded percentages sum to 100 within 0.1. -/
theorem conversation_stats_invariants (msgs : List Message) (top_n : Nat)
    (hwf : msgs.all wfMessage = true)
    (total_convs : Nat) (stats : List ContactStats)
    (hok : conversation_stats msgs top_n = .ok (total_convs, stats)) :
    ∀ c ∈ stats,
      c.my_messages + c.their_messages = c.total_messages ∧
      (0 < c.total_messages →
        |c.my_percentage + c.their_percentage - 100| ≤ 1 / 10) := by
  have hstats : stats = statsList msgs top_n := by
    unfold conversation_stats conversation_analysis at hok
    by_cases hm : msgs = []
    · rw [if_pos hm] at hok; cases hok
    · rw [if_neg hm] at hok
      cases hok; rfl
  subst hstats
  intro c hc
  rcases List.mem_map.1 hc with ⟨p, hp, hcp⟩
  have hp1 : p ∈ List.insertionSort byTotalGe
      ((firstOccur (msgs.map senderOf)).map (fun s => (s, convRecord msgs s))) :=
    List.mem_of_mem_take hp
  have hp2 : p ∈ (firstOccur (msgs.map senderOf)).map
      (fun s => (s, convRecord msgs s)) :=
    (List.perm_insertionSort byTotalGe _).mem_iff.1 hp1
  rcases List.mem_map.1 hp2 with ⟨s, _, hps⟩
  subst hps
  subst hcp
  set r := convRecord msgs s with hr
  have hcounts : r.my_messages + r.their_messages = r.total_count := by
    rw [hr]
    unfold convRecord
    exact countP_add_countP_not _ _
  constructor
  · exact hcounts
  · intro hpos
    have hpos' : 0 < r.total_count := hpos
    have hmyr : r.my_ratio = (r.my_messages : ℚ) / (r.total_count : ℚ) := by
      rw [hr]
      unfold convRecord
      simp only
      rw [if_pos]
      exact hpos'
    have htheir : r.their_ratio = (r.their_messages : ℚ) / (r.total_count : ℚ) := by
      rw [hr]
      unfold convRecord
      simp only
      rw [if_pos]
      exact hpos'
    show |round1 (r.my_ratio * 100) + round1 (r.their_ratio * 100) - 100| ≤ 1 / 10
    rw [hmyr, htheir]
    exact pct_sum_close r.my_messages r.their_messages r.total_count hpos' hcounts

/-- A concrete two-message collection with one contact, one message each
way. -/
def statsMsgs : List Message :=
  [⟨.str (chars "a@b.com"), .str (chars "hi"), .str (chars "2024-01-01"),
    .str (chars "iMessage"), .str (chars "x"), .bool true⟩,
   ⟨.str (chars "a@b.com"), .str (chars "yo"), .str (chars "2024-01-02"),
    .str (chars "iMessage"), .str (chars "x"), .bool false⟩]

/-- The single `top_conversations` entry computed for `statsMsgs`. -/
def statsEntry : ContactStats :=
  mkContactStats (chars "a@b.com", convRecord statsMsgs (chars "a@b.com"))

/-- The stats list for `statsMsgs` is that single entry. -/
theorem statsList_statsMsgs : statsList statsMsgs 5 = [statsEntry] := rfl

/-- Witness for `conversation_stats_invariants` on `statsMsgs`. -/
theorem conversation_stats_invariants_witness :
    statsEntry.my_messages + statsEntry.their_messages = statsEntry.total_messages ∧
    |statsEntry.my_percentage + statsEntry.their_percentage - 100| ≤ 1 / 10 :=
  ⟨(conversation_stats_invariants statsMsgs 5 (by decide)
      ((firstOccur (statsMsgs.map senderOf)).map
        (fun s => (s, convRecord statsMsgs s))).length
      (statsList statsMsgs 5) rfl statsEntry
      (by rw [statsList_statsMsgs]; exact List.mem_singleton.2 rfl)).1,
   (conversation_stats_invariants statsMsgs 5 (by decide)
      ((firstOccur (statsMsgs.map senderOf)).map
        (fun s => (s, convRecord statsMsgs s))).length
      (statsList statsMsgs 5) rfl statsEntry
      (by rw [statsList_statsMsgs]; exact List.mem_singleton.2 rfl)).2 (by decide)⟩
